import Mathlib

/-!
# Verification of the sc55 SysEx codec and register catalog

Shallow embedding of the `sc55` Go package (file `sc55/sc55.go`, current
revision): the SysEx message codec (`checksum`, `DataSet`, `UnmarshalSet`),
the register model (`Register.Set`, `Register.Unmarshal`, `clamp`), the
register catalog built from the master registers and the sixteen part
blocks, and the display-image bitmap packer.

Modelling conventions:
* Go `byte` is modelled as `Nat` (values are kept below 256 by the
  operations that produce them); Go `int` is modelled as `Int`.
* Go's conversion `byte(x)` keeps the low 8 bits of the two's-complement
  representation, which for any `x : Int` equals `x % 256` (the `%` on
  `Int` is the Euclidean remainder, non-negative here); Go's arithmetic
  right shift `x >> n` is floor division, which for a positive divisor
  is the Euclidean `/` on `Int`.
* Go's `%` and `/` on the non-negative values appearing here agree with
  `Nat` `%` and `/`.
* Out-of-bounds slice indexing panics in Go; the decoder models this with
  an explicit `outOfBounds` result, produced exactly where the Go code
  would panic, following the evaluation order of the source.
-/

namespace SC55

/-- Default device ID (`DefaultDevice = 0x10`). -/
def DefaultDevice : Nat := 0x10

/-- Roland manufacturer ID (`manufacturerID = 0x41`). -/
def manufacturerID : Nat := 0x41

/-- SysEx start byte (`sysExStart = 0xf0`). -/
def sysExStart : Nat := 0xf0

/-- SysEx end byte (`sysExEnd = 0xf7`). -/
def sysExEnd : Nat := 0xf7

/-- RQ1 (request data) command byte. -/
def cmdRQ1 : Nat := 0x11

/-- DT1 (set data) command byte. -/
def cmdDT1 : Nat := 0x12

/-- Display message base address. -/
def AddrDisplayMessage : Int := 0x100000

/-- Display image base address. -/
def AddrDisplayImage : Int := 0x100100

/-- Mode set address. -/
def AddrModeSet : Int := 0x40007F

/-- Go struct `Register`: a SoundCanvas memory register
(`Address, Size int; Min, Max int; Zero int`). -/
structure Register where
  Address : Int
  Size : Int
  Min : Int
  Max : Int
  Zero : Int
deriving DecidableEq, Repr

instance : Inhabited Register := ⟨⟨0, 0, 0, 0, 0⟩⟩

/-- Go `byte(x)` for `x : int`: the low 8 bits of the two's-complement
representation, i.e. `x` modulo 256 with a non-negative result
(Euclidean remainder). -/
def byteOf (x : Int) : Nat := (x % 256).toNat

/-- Roland checksum `checksum(data []byte) byte`: `sum` of the bytes (Go `int`, non-negative,
so `Nat` is faithful), then `byte(128-(sum%128)) % 128`; the `byte(...)`
conversion is reduction mod 256. -/
def checksum (data : List Nat) : Nat :=
  ((128 - data.sum % 128) % 256) % 128

/-- Master tune register `Register{0x400000, 4, 0x18, 0x7e8, 0x400}`. -/
def MasterTune : Register := ⟨0x400000, 4, 0x18, 0x7e8, 0x400⟩

/-- Catalog register `Register{0x400004, 1, 0x00, 0x7f, 0}`. -/
def MasterVolume : Register := ⟨0x400004, 1, 0x00, 0x7f, 0⟩

/-- Catalog register `Register{0x400005, 1, 0x28, 0x58, 0x40}`. -/
def MasterKeyShift : Register := ⟨0x400005, 1, 0x28, 0x58, 0x40⟩

/-- Catalog register `Register{0x400006, 1, 0x01, 0x7f, 0x40}`. -/
def MasterPan : Register := ⟨0x400006, 1, 0x01, 0x7f, 0x40⟩

/-- Catalog register `Register{0x400130, 1, 0x00, 0x07, 0}`. -/
def ReverbMacro : Register := ⟨0x400130, 1, 0x00, 0x07, 0⟩

/-- Catalog register `Register{0x400131, 1, 0x00, 0x07, 0}`. -/
def ReverbCharacter : Register := ⟨0x400131, 1, 0x00, 0x07, 0⟩

/-- Catalog register `Register{0x400132, 1, 0x00, 0x07, 0}`. -/
def ReverbPreLPF : Register := ⟨0x400132, 1, 0x00, 0x07, 0⟩

/-- Catalog register `Register{0x400133, 1, 0x00, 0x7f, 0}`. -/
def ReverbLevel : Register := ⟨0x400133, 1, 0x00, 0x7f, 0⟩

/-- Catalog register `Register{0x400134, 1, 0x00, 0x7f, 0}`. -/
def ReverbTime : Register := ⟨0x400134, 1, 0x00, 0x7f, 0⟩

/-- Catalog register `Register{0x400135, 1, 0x00, 0x7f, 0}`. -/
def ReverbDelayFeedback : Register := ⟨0x400135, 1, 0x00, 0x7f, 0⟩

/-- Catalog register `Register{0x400136, 1, 0x00, 0x7f, 0}`. -/
def ReverbToChorusLevel : Register := ⟨0x400136, 1, 0x00, 0x7f, 0⟩

/-- Catalog register `Register{0x400138, 1, 0x00, 0x07, 0}`. -/
def ChorusMacro : Register := ⟨0x400138, 1, 0x00, 0x07, 0⟩

/-- Catalog register `Register{0x400139, 1, 0x00, 0x07, 0}`. -/
def ChorusPreLPF : Register := ⟨0x400139, 1, 0x00, 0x07, 0⟩

/-- Catalog register `Register{0x40013a, 1, 0x00, 0x7f, 0}`. -/
def ChorusLevel : Register := ⟨0x40013a, 1, 0x00, 0x7f, 0⟩

/-- Catalog register `Register{0x40013b, 1, 0x00, 0x7f, 0}`. -/
def ChorusFeedback : Register := ⟨0x40013b, 1, 0x00, 0x7f, 0⟩

/-- Catalog register `Register{0x40013c, 1, 0x00, 0x7f, 0}`. -/
def ChorusDelay : Register := ⟨0x40013c, 1, 0x00, 0x7f, 0⟩

/-- Catalog register `Register{0x40013d, 1, 0x00, 0x7f, 0}`. -/
def ChorusRate : Register := ⟨0x40013d, 1, 0x00, 0x7f, 0⟩

/-- Catalog register `Register{0x40013e, 1, 0x00, 0x7f, 0}`. -/
def ChorusDepth : Register := ⟨0x40013e, 1, 0x00, 0x7f, 0⟩

/-- Catalog register `Register{0x40013f, 1, 0x00, 0x7f, 0}`. -/
def ChorusToReverbLevel : Register := ⟨0x40013f, 1, 0x00, 0x7f, 0⟩

/-- Model ID selection `modelID(addr int) byte`: `0x45` below the master-tune address,
`0x42` at or above it. -/
def modelID (addr : Int) : Nat :=
  if addr < MasterTune.Address then 0x45 else 0x42

/-- Address encoder `marshalInt24`: big-endian 3-byte encoding
`[byte((val>>16)&0xff), byte((val>>8)&0xff), byte(val&0xff)]`. -/
def marshalInt24 (val : Int) : List Nat :=
  [byteOf (val / 65536), byteOf (val / 256), byteOf val]

/-- Address decoder `unmarshalInt24`: `(int(data[0]) << 16) | (int(data[1]) << 8) | int(data[2])`.
The operands are bytes (non-negative), so the `Nat` shift/or computes the same
value as Go's `int` shift/or. -/
def unmarshalInt24 (data : List Nat) : Int :=
  ((data.getD 0 0 <<< 16 ||| data.getD 1 0 <<< 8 ||| data.getD 2 0 : Nat) : Int)

/-- DT1 frame builder `DataSet(device, addr, data...)`: body is the 3-byte address followed by
the data; frame is start, manufacturer, device, model ID, DT1 command, body,
checksum over the body, end. -/
def DataSet (device : Nat) (addr : Int) (data : List Nat) : List Nat :=
  let body := marshalInt24 addr ++ data
  [sysExStart, manufacturerID, device, modelID addr, cmdDT1] ++ body
    ++ [checksum body, sysExEnd]

/-- Three-way saturation `clamp(x, min, max int) int`. -/
def clamp (x lo hi : Int) : Int :=
  if x < lo then lo else if x > hi then hi else x

/-- Encoder `Register.Set`: `value = clamp(value+r.Zero, r.Min, r.Max)`, then the
little-endian bytes `byte(value&0xff), byte((value>>8)&0xff),
byte((value>>16)&0xff), byte((value>>24)&0xff)` truncated to `Size` bytes,
passed to `DataSet` at the register's address. -/
def Register.Set (r : Register) (device : Nat) (value : Int) : List Nat :=
  let v := clamp (value + r.Zero) r.Min r.Max
  let bytes := [byteOf v, byteOf (v / 256), byteOf (v / 65536),
    byteOf (v / 16777216)]
  DataSet device r.Address (bytes.take r.Size.toNat)

/-- The distinct error kinds returned by the decoder, one per validation in
`UnmarshalSet` and `Register.Unmarshal`. -/
inductive UErr where
  | notSysEx
  | wrongManufacturer
  | wrongModel
  | wrongCommand
  | tooShort
  | wrongChecksum
  | wrongRegister
  | wrongSize
  | valueOutOfRange
deriving DecidableEq, Repr

/-- Result of a decode: `outOfBounds` models a Go out-of-range slice index
(a runtime panic), `failure` an error return, `ok` a successful return. -/
inductive UResult (α : Type) where
  | outOfBounds
  | failure (e : UErr)
  | ok (a : α)
deriving DecidableEq, Repr

/-- Decoder `UnmarshalSet(msg []byte) (DeviceID, int, []byte, error)`, following the
evaluation order of the Go `switch`: `msg[0]` and `msg[len(msg)-1]` (the
latter is always in bounds once `msg[0]` is), then `msg[1]`, `msg[3]`,
`msg[4]`, then the length check, then the checksum over `msg[5:len(msg)-2]`
against `msg[len(msg)-2]`; on success returns `msg[2]`, the address decoded
from `msg[5:8]`, and the payload `msg[8:len(msg)-2]`. Indexes reached only
after the length check is passed are always in bounds and are modelled with
`getD`. -/
def UnmarshalSet (msg : List Nat) : UResult (Nat × Int × List Nat) :=
  match msg[0]? with
  | none => .outOfBounds
  | some b0 =>
    if b0 ≠ sysExStart ∨ msg.getD (msg.length - 1) 0 ≠ sysExEnd then
      .failure .notSysEx
    else match msg[1]? with
    | none => .outOfBounds
    | some b1 =>
      if b1 ≠ manufacturerID then .failure .wrongManufacturer
      else match msg[3]? with
      | none => .outOfBounds
      | some b3 =>
        if b3 ≠ 0x42 ∧ b3 ≠ 0x45 then .failure .wrongModel
        else match msg[4]? with
        | none => .outOfBounds
        | some b4 =>
          if b4 ≠ cmdDT1 then .failure .wrongCommand
          else if msg.length < 10 then .failure .tooShort
          else
            let body := (msg.drop 5).take (msg.length - 7)
            if checksum body ≠ msg.getD (msg.length - 2) 0 then
              .failure .wrongChecksum
            else
              .ok (msg.getD 2 0, unmarshalInt24 ((msg.drop 5).take 3),
                (msg.drop 8).take (msg.length - 10))

/-- Little-endian accumulation `result |= int(b) << uint(i*8)` over the
payload bytes, written as structural recursion: the byte at position `i`
is shifted left by `8*i` and or-ed in. -/
def leDecode : List Nat → Nat
  | [] => 0
  | b :: rest => b ||| leDecode rest <<< 8

/-- Decoder `Register.Unmarshal`: decodes via `UnmarshalSet`, checks the address and
payload size, accumulates the little-endian raw value, checks `[Min, Max]`,
and returns `raw - Zero`. -/
def Register.Unmarshal (r : Register) (msg : List Nat) : UResult (Nat × Int) :=
  match UnmarshalSet msg with
  | .outOfBounds => .outOfBounds
  | .failure e => .failure e
  | .ok (dev, addr, payload) =>
    if addr ≠ r.Address then .failure .wrongRegister
    else if (payload.length : Int) ≠ r.Size then .failure .wrongSize
    else
      let result : Int := (leDecode payload : Nat)
      if result < r.Min ∨ result > r.Max then .failure .valueOutOfRange
      else .ok (dev, result - r.Zero)

/-- The template part: the 43 registers of `templatePart`, in field order,
with their relative addresses (field names in the comments). -/
def templatePart : List Register := [
  ⟨0x00, 2, 0x00, 0x7f7f, 0⟩,   -- ToneNumber
  ⟨0x02, 1, 0x00, 0x10, 0⟩,     -- RxChannel
  ⟨0x03, 1, 0x00, 0x01, 0⟩,     -- RxPitchBend
  ⟨0x04, 1, 0x00, 0x01, 0⟩,     -- RxChPressure
  ⟨0x05, 1, 0x00, 0x01, 0⟩,     -- RxProgramChange
  ⟨0x06, 1, 0x00, 0x01, 0⟩,     -- RxControlChange
  ⟨0x07, 1, 0x00, 0x01, 0⟩,     -- RxPolyPressure
  ⟨0x08, 1, 0x00, 0x01, 0⟩,     -- RxNoteMessage
  ⟨0x09, 1, 0x00, 0x01, 0⟩,     -- RxRPN
  ⟨0x0a, 1, 0x00, 0x01, 0⟩,     -- RxNRPN
  ⟨0x0b, 1, 0x00, 0x01, 0⟩,     -- RxModulation
  ⟨0x0c, 1, 0x00, 0x01, 0⟩,     -- RxVolume
  ⟨0x0d, 1, 0x00, 0x01, 0⟩,     -- RxPanPot
  ⟨0x0e, 1, 0x00, 0x01, 0⟩,     -- RxExpression
  ⟨0x0f, 1, 0x00, 0x01, 0⟩,     -- RxHold1
  ⟨0x10, 1, 0x00, 0x01, 0⟩,     -- RxPortamento
  ⟨0x11, 1, 0x00, 0x01, 0⟩,     -- RxSostenuto
  ⟨0x12, 1, 0x00, 0x01, 0⟩,     -- RxSoft
  ⟨0x13, 1, 0x00, 0x01, 0⟩,     -- MonoPolyMode
  ⟨0x14, 1, 0x00, 0x02, 0⟩,     -- AssignMode
  ⟨0x15, 1, 0x00, 0x02, 0⟩,     -- UseForRhythm
  ⟨0x16, 1, 0x28, 0x58, 0x40⟩,  -- PitchKeyShift
  ⟨0x17, 2, 0x08, 0xf8, 0x800⟩, -- PitchOffsetFine
  ⟨0x19, 1, 0x00, 0x7f, 0⟩,     -- PartLevel
  ⟨0x1a, 1, 0x00, 0x7f, 0⟩,     -- VelocitySenseDepth
  ⟨0x1b, 1, 0x00, 0x7f, 0⟩,     -- VelocitySenseOffset
  ⟨0x1c, 1, 0x00, 0x7f, 0x40⟩,  -- PanPot
  ⟨0x1d, 1, 0x00, 0x7f, 0⟩,     -- KeyRangeLow
  ⟨0x1e, 1, 0x00, 0x7f, 0⟩,     -- KeyRangeHigh
  ⟨0x1f, 1, 0x00, 0x5f, 0⟩,     -- CC1Controller
  ⟨0x20, 1, 0x00, 0x5f, 0⟩,     -- CC2Controller
  ⟨0x21, 1, 0x00, 0x7f, 0⟩,     -- ChorusSendLevel
  ⟨0x22, 1, 0x00, 0x7f, 0⟩,     -- ReverbSendLevel
  ⟨0x23, 1, 0x00, 0x01, 0⟩,     -- RxBankSelect
  ⟨0x30, 1, 0x0e, 0x72, 0x40⟩,  -- ToneModify1
  ⟨0x31, 1, 0x0e, 0x72, 0x40⟩,  -- ToneModify2
  ⟨0x32, 1, 0x0e, 0x72, 0x40⟩,  -- ToneModify3
  ⟨0x33, 1, 0x0e, 0x72, 0x40⟩,  -- ToneModify4
  ⟨0x34, 1, 0x0e, 0x72, 0x40⟩,  -- ToneModify5
  ⟨0x35, 1, 0x0e, 0x72, 0x40⟩,  -- ToneModify6
  ⟨0x36, 1, 0x0e, 0x72, 0x40⟩,  -- ToneModify7
  ⟨0x37, 1, 0x0e, 0x72, 0x40⟩]  -- ToneModify8

/-- The part-index quirk of `init()`: `partIndex := partNumber % 10;
if partNumber > 10 { partIndex = partNumber - 1 }`. -/
def partIndexOf (partNumber : Nat) : Nat :=
  if partNumber > 10 then partNumber - 1 else partNumber % 10

/-- Base address of a part: `0x401000 + partIndex*0x100`. -/
def partBase (partNumber : Nat) : Int :=
  0x401000 + (partIndexOf partNumber : Int) * 0x100

/-- The registers of one part: the template with the part's base address
added to every field's relative address (`Part.init`). -/
def partRegisters (partNumber : Nat) : List Register :=
  templatePart.map (fun r => { r with Address := r.Address + partBase partNumber })

/-- The master registers registered by `init()`, in registration order. -/
def masterRegisters : List Register :=
  [MasterTune, MasterVolume, MasterKeyShift, MasterPan,
   ReverbMacro, ReverbCharacter, ReverbPreLPF, ReverbLevel, ReverbTime,
   ReverbDelayFeedback, ReverbToChorusLevel,
   ChorusMacro, ChorusPreLPF, ChorusLevel, ChorusFeedback, ChorusDelay,
   ChorusRate, ChorusDepth, ChorusToReverbLevel]

/-- Every register the catalog holds: the master registers and the 42
fields of each of the 16 parts (part numbers 1-16). -/
def catalogRegisters : List Register :=
  masterRegisters ++ ((List.range 16).map (fun i => partRegisters (i + 1))).flatten

/-- Minimal model of Go's `image.Image` as consumed by `DisplayImage`:
the bounds rectangle `(Min.X, Min.Y, Max.X, Max.Y)` and the per-pixel
`RGBA()` channel values `(r, g, b, a)` (each nominally in `[0, 0xffff]`);
`DisplayImage` only queries pixels at coordinates `0..15`. -/
structure Image where
  bounds : Int × Int × Int × Int
  At : Nat → Nat → Nat × Nat × Nat × Nat

/-- Brightness test of `DisplayImage`: `r, g, b, _ := img.At(x, y).RGBA()`
and then `(r+g+b)/3 > 0x8000`; the sum is `uint32` arithmetic, hence the
reduction mod `2^32` (the alpha channel is ignored). -/
def bright (img : Image) (x y : Nat) : Bool :=
  decide (((img.At x y).1 + (img.At x y).2.1 + (img.At x y).2.2.1)
    % 4294967296 / 3 > 0x8000)

/-- One iteration of the `DisplayImage` packing loop: for pixel `(x, y)`,
`bytenum := (x/5)*16 + y`, `bitnum := 4 - (x % 5)`, and if the pixel is
bright, `buf[bytenum] |= 1 << bitnum`. -/
def packStep (img : Image) (buf : List Nat) (y x : Nat) : List Nat :=
  let bytenum := x / 5 * 16 + y
  let bitnum := 4 - x % 5
  if bright img x y then buf.set bytenum (buf.getD bytenum 0 ||| 1 <<< bitnum)
  else buf

/-- The 64-byte display buffer built by `DisplayImage`: a 64-byte zero
buffer updated by the double loop `for y := 0..15 { for x := 0..15 }`. -/
def packImage (img : Image) : List Nat :=
  (List.range 16).foldl
    (fun buf y => (List.range 16).foldl (fun buf x => packStep img buf y x) buf)
    (List.replicate 64 0)

/-- Front-panel image command `DisplayImage(device, img)`: rejects any
image whose bounds differ from `image.Rect(0, 0, 16, 16)` (modelled as
`none`, the Go error return), otherwise sends the packed buffer with
`DataSet` at the display-image address. -/
def DisplayImage (device : Nat) (img : Image) : Option (List Nat) :=
  if img.bounds ≠ (0, 0, 16, 16) then none
  else some (DataSet device AddrDisplayImage (packImage img))

/-- Variant of `Register.Set` that computes the raw value the way claim C2
words it: the clamp is applied to the pre-offset logical value against the
raw bounds first and `Zero` is added afterwards
(`value = clamp(value, r.Min, r.Max) + r.Zero`, the formula of the
superseded `part_000` revision). Kept only for comparison against
`Register.Set`. -/
def Register.SetClampFirst (r : Register) (device : Nat) (value : Int) : List Nat :=
  let v := clamp value r.Min r.Max + r.Zero
  let bytes := [byteOf v, byteOf (v / 256), byteOf (v / 65536),
    byteOf (v / 16777216)]
  DataSet device r.Address (bytes.take r.Size.toNat)

/-- Well-formedness facts that every catalog register enjoys, checked by
evaluation over the whole catalog in `catalog_good`: non-negative bounds
with `Min ≤ Max`, a size of 1 to 4 bytes wide enough to hold `Max`, and a
24-bit address that survives the marshal/unmarshal pair. -/
def GoodReg (r : Register) : Prop :=
  0 ≤ r.Min ∧ r.Min ≤ r.Max ∧ 1 ≤ r.Size ∧ r.Size ≤ 4 ∧
  r.Max < 2 ^ (8 * r.Size.toNat) ∧ 0 ≤ r.Address ∧
  unmarshalInt24 (marshalInt24 r.Address) = r.Address

instance : DecidablePred GoodReg := fun r => by
  unfold GoodReg; infer_instance

/-- A 16x16 image source all of whose pixels are black. -/
def allDark16 : Image := ⟨(0, 0, 16, 16), fun _ _ => (0, 0, 0, 0)⟩

/-- A 16x16 image source whose only bright pixel is `(x=0, y=0)`. -/
def pixel00 : Image :=
  ⟨(0, 0, 16, 16), fun x y =>
    if x = 0 ∧ y = 0 then (0xffff, 0xffff, 0xffff, 0xffff) else (0, 0, 0, 0)⟩

/-- The `(y, x)` pixel coordinates visited by the `DisplayImage` double
loop, in visiting order (outer loop `y`, inner loop `x`). -/
def pairs16 : List (Nat × Nat) :=
  ((List.range 16).map (fun y => (List.range 16).map (fun x => (y, x)))).flatten

/-- The or of the bit masks that the pixels in `ps` contribute to byte `i`
of the display buffer. -/
def orMasks (img : Image) (i : Nat) : List (Nat × Nat) → Nat
  | [] => 0
  | p :: ps =>
    (if bright img p.2 p.1 ∧ p.2 / 5 * 16 + p.1 = i then 1 <<< (4 - p.2 % 5)
     else 0) ||| orMasks img i ps

/-! ## Arithmetic helpers

Bytes produced by `byteOf` are below 256, and an or of values occupying
disjoint bit ranges is their sum; these lemmas let the bit-level encoders
and decoders be read as base-256 positional arithmetic. -/

theorem byteOf_lt (x : Int) : byteOf x < 256 := by
  unfold byteOf
  omega

theorem lor_mul_pow (k a x : Nat) (h : a < 2 ^ k) :
    a ||| x * 2 ^ k = a + x * 2 ^ k := by
  have hsh : x * 2 ^ k = x <<< k := (Nat.shiftLeft_eq x k).symm
  rw [hsh]
  have hmod : (a ||| x <<< k) % 2 ^ k = a := by
    apply Nat.eq_of_testBit_eq
    intro j
    rw [Nat.testBit_mod_two_pow, Nat.testBit_or, Nat.testBit_shiftLeft]
    by_cases hj : j < k
    · have hk : ¬ (j ≥ k) := by omega
      simp [hj, hk]
    · have h1 : a.testBit j = false :=
        Nat.testBit_lt_two_pow
          (lt_of_lt_of_le h (Nat.pow_le_pow_right (by norm_num) (by omega)))
      simp [hj, h1]
  have hdiv : (a ||| x <<< k) / 2 ^ k = x := by
    rw [← Nat.shiftRight_eq_div_pow]
    apply Nat.eq_of_testBit_eq
    intro j
    rw [Nat.testBit_shiftRight, Nat.testBit_or, Nat.testBit_shiftLeft]
    have h1 : a.testBit (k + j) = false :=
      Nat.testBit_lt_two_pow
        (lt_of_lt_of_le h (Nat.pow_le_pow_right (by norm_num) (by omega)))
    have h2 : k + j ≥ k := Nat.le_add_right _ _
    simp [h1, h2]
  calc a ||| x <<< k
      = 2 ^ k * ((a ||| x <<< k) / 2 ^ k) + (a ||| x <<< k) % 2 ^ k :=
        (Nat.div_add_mod _ _).symm
    _ = a + x <<< k := by rw [hdiv, hmod, Nat.shiftLeft_eq]; ring

theorem lor_mul_256 (a x : Nat) (h : a < 256) : a ||| x * 256 = a + x * 256 := by
  have h2 := lor_mul_pow 8 a x (by norm_num [h])
  norm_num at h2
  exact h2

theorem lor_mul_65536 (a x : Nat) (h : a < 65536) :
    a ||| x * 65536 = a + x * 65536 := by
  have h2 := lor_mul_pow 16 a x (by norm_num [h])
  norm_num at h2
  exact h2

theorem lor_shl8 (a x : Nat) (h : a < 256) : a ||| x <<< 8 = a + x * 256 := by
  rw [Nat.shiftLeft_eq]
  norm_num
  exact lor_mul_256 a x h

theorem unmarshalInt24_digits (a b c : Nat) (hb : b < 256) (hc : c < 256) :
    unmarshalInt24 [a, b, c] = ((a * 65536 + b * 256 + c : Nat) : Int) := by
  unfold unmarshalInt24
  congr 1
  simp only [List.getD_cons_zero, List.getD_cons_succ]
  rw [Nat.shiftLeft_eq, Nat.shiftLeft_eq]
  norm_num
  rw [Nat.lor_comm (a * 65536) (b * 256)]
  rw [lor_mul_65536 (b * 256) a (by omega)]
  rw [Nat.lor_comm]
  rw [show b * 256 + a * 65536 = (b + a * 256) * 256 by ring]
  rw [lor_mul_256 c _ hc]
  ring

/-! ## List indexing helpers -/

theorem getD_append_len_add {α : Type} (l₁ l₂ : List α) (d : α) (i : Nat) :
    (l₁ ++ l₂).getD (l₁.length + i) d = l₂.getD i d := by
  induction l₁ with
  | nil => simp
  | cons a l ih =>
    rw [List.cons_append, List.length_cons,
      show l.length + 1 + i = (l.length + i) + 1 from by omega,
      List.getD_cons_succ]
    exact ih

theorem take_append_len_add {α : Type} (l₁ l₂ : List α) (i : Nat) :
    (l₁ ++ l₂).take (l₁.length + i) = l₁ ++ l₂.take i := by
  induction l₁ with
  | nil => simp
  | cons a l ih =>
    rw [List.cons_append, List.length_cons,
      show l.length + 1 + i = (l.length + i) + 1 from by omega,
      List.take_succ_cons, ih, List.cons_append]

/-! ## Behaviour of the decoder on well-formed frames -/

theorem UnmarshalSet_decomp (b0 b1 b2 b3 b4 a0 a1 a2 : Nat)
    (mid : List Nat) (ck fin : Nat) :
    UnmarshalSet ([b0, b1, b2, b3, b4, a0, a1, a2] ++ (mid ++ [ck, fin])) =
      if b0 ≠ sysExStart ∨ fin ≠ sysExEnd then .failure .notSysEx
      else if b1 ≠ manufacturerID then .failure .wrongManufacturer
      else if b3 ≠ 0x42 ∧ b3 ≠ 0x45 then .failure .wrongModel
      else if b4 ≠ cmdDT1 then .failure .wrongCommand
      else if checksum ([a0, a1, a2] ++ mid) ≠ ck then .failure .wrongChecksum
      else .ok (b2, unmarshalInt24 [a0, a1, a2], mid) := by
  set P : List Nat := [b0, b1, b2, b3, b4, a0, a1, a2] with hP
  set T : List Nat := mid ++ [ck, fin] with hT
  set n := mid.length with hn
  have hlen : (P ++ T).length = 10 + n := by
    simp [hP, hT, hn]
    omega
  have hTgetD : ∀ i, T.getD (n + i) 0 = [ck, fin].getD i 0 := by
    intro i
    rw [hT, hn, getD_append_len_add]
  have hlast : (P ++ T).getD ((P ++ T).length - 1) 0 = fin := by
    rw [hlen, show 10 + n - 1 = (8 : Nat) + (n + 1) by omega,
      show (8 : Nat) = P.length by simp [hP],
      getD_append_len_add, hTgetD]
    rfl
  have hck : (P ++ T).getD ((P ++ T).length - 2) 0 = ck := by
    rw [hlen, show 10 + n - 2 = (8 : Nat) + (n + 0) by omega,
      show (8 : Nat) = P.length by simp [hP],
      getD_append_len_add, hTgetD]
    rfl
  have hdev : (P ++ T).getD 2 0 = b2 := by
    rw [hP]
    rfl
  have hdrop5 : (P ++ T).drop 5 = [a0, a1, a2] ++ T := by
    rw [hP]
    rfl
  have hbody : ((P ++ T).drop 5).take ((P ++ T).length - 7) = [a0, a1, a2] ++ mid := by
    rw [hdrop5, hlen, show 10 + n - 7 = (3 : Nat) + n by omega,
      show (3 : Nat) + n = ([a0, a1, a2] : List Nat).length + n by simp,
      take_append_len_add, hT, hn, List.take_left]
  have haddr : ((P ++ T).drop 5).take 3 = [a0, a1, a2] := by
    rw [hdrop5]
    rfl
  have hpay : ((P ++ T).drop 8).take ((P ++ T).length - 10) = mid := by
    have hdrop8 : (P ++ T).drop 8 = T := by
      rw [hP]
      rfl
    rw [hdrop8, hlen, show 10 + n - 10 = n by omega, hT, hn, List.take_left]
  have h0 : (P ++ T)[0]? = some b0 := by rw [hP]; rfl
  have h1 : (P ++ T)[1]? = some b1 := by rw [hP]; rfl
  have h3 : (P ++ T)[3]? = some b3 := by rw [hP]; rfl
  have h4 : (P ++ T)[4]? = some b4 := by rw [hP]; rfl
  unfold UnmarshalSet
  rw [h0, h1, h3, h4, hlast, hck, hdev, hbody, haddr, hpay, hlen]
  simp only [show ¬ (10 + n < 10) from by omega, if_false]

theorem UnmarshalSet_DataSet (device : Nat) (addr : Int) (data : List Nat) :
    UnmarshalSet (DataSet device addr data) =
      .ok (device, unmarshalInt24 (marshalInt24 addr), data) := by
  have hshape : DataSet device addr data =
      [sysExStart, manufacturerID, device, modelID addr, cmdDT1,
        byteOf (addr / 65536), byteOf (addr / 256), byteOf addr] ++
      (data ++ [checksum (marshalInt24 addr ++ data), sysExEnd]) := by
    unfold DataSet marshalInt24
    simp
  rw [hshape, UnmarshalSet_decomp]
  have hc : checksum ([byteOf (addr / 65536), byteOf (addr / 256), byteOf addr]
      ++ data) = checksum (marshalInt24 addr ++ data) := rfl
  have hm : ¬ (modelID addr ≠ 0x42 ∧ modelID addr ≠ 0x45) := by
    unfold modelID
    split <;> simp
  rw [if_neg (by unfold sysExStart sysExEnd; simp),
    if_neg (by unfold manufacturerID; simp),
    if_neg hm,
    if_neg (by unfold cmdDT1; simp),
    if_neg (by rw [hc]; simp)]
  rfl

/-- Little-endian reassembly: decoding the `Size`-truncated little-endian
bytes of a non-negative value that fits in `Size` bytes gives the value
back. -/
theorem leDecode_take (v : Int) (s : Nat) (h1 : 1 ≤ s) (h4 : s ≤ 4)
    (hv0 : 0 ≤ v) (hvlt : v < 2 ^ (8 * s)) :
    ((leDecode (([byteOf v, byteOf (v / 256), byteOf (v / 65536),
      byteOf (v / 16777216)]).take s) : Nat) : Int) = v := by
  interval_cases s
  · norm_num at hvlt
    simp only [List.take, leDecode, Nat.zero_shiftLeft, Nat.or_zero]
    unfold byteOf
    omega
  · norm_num at hvlt
    simp only [List.take, leDecode, Nat.zero_shiftLeft, Nat.or_zero]
    rw [lor_shl8 _ _ (byteOf_lt _)]
    unfold byteOf
    push_cast
    omega
  · norm_num at hvlt
    simp only [List.take, leDecode, Nat.zero_shiftLeft, Nat.or_zero]
    rw [lor_shl8 _ _ (byteOf_lt _), lor_shl8 _ _ (byteOf_lt _)]
    unfold byteOf
    push_cast
    omega
  · norm_num at hvlt
    simp only [List.take, leDecode, Nat.zero_shiftLeft, Nat.or_zero]
    rw [lor_shl8 _ _ (byteOf_lt _), lor_shl8 _ _ (byteOf_lt _),
      lor_shl8 _ _ (byteOf_lt _)]
    unfold byteOf
    push_cast
    omega

set_option maxRecDepth 8000 in
/-- Every register of the catalog is well formed, by evaluation over the
whole catalog. -/
theorem catalog_good : ∀ r ∈ catalogRegisters, GoodReg r := by decide

/-- Core of the round-trip property: under the well-formedness facts of
`GoodReg`, a logical value in `[Min-Zero, Max-Zero]` survives
`Set` followed by `Unmarshal` unchanged, along with the device ID. -/
theorem set_unmarshal_roundtrip (r : Register) (hg : GoodReg r)
    (device : Nat) (v : Int)
    (hlo : r.Min - r.Zero ≤ v) (hhi : v ≤ r.Max - r.Zero) :
    r.Unmarshal (r.Set device v) = .ok (device, v) := by
  obtain ⟨hmin0, hminmax, hs1, hs4, hmax, haddr0, hmarsh⟩ := hg
  have hclamp : clamp (v + r.Zero) r.Min r.Max = v + r.Zero := by
    unfold clamp
    rw [if_neg (by omega), if_neg (by omega)]
  unfold Register.Set
  rw [hclamp]
  unfold Register.Unmarshal
  rw [UnmarshalSet_DataSet, hmarsh]
  dsimp only
  rw [if_neg (by simp)]
  have hlens : (([byteOf (v + r.Zero), byteOf ((v + r.Zero) / 256),
      byteOf ((v + r.Zero) / 65536), byteOf ((v + r.Zero) / 16777216)]).take
        r.Size.toNat).length = r.Size.toNat := by
    rw [List.length_take]
    simp
    omega
  rw [if_neg (by rw [hlens]; omega)]
  have hdec : ((leDecode (([byteOf (v + r.Zero), byteOf ((v + r.Zero) / 256),
      byteOf ((v + r.Zero) / 65536), byteOf ((v + r.Zero) / 16777216)]).take
        r.Size.toNat) : Nat) : Int) = v + r.Zero := by
    apply leDecode_take (v + r.Zero) r.Size.toNat (by omega) (by omega) (by omega)
    omega
  rw [if_neg (by rw [hdec]; omega)]
  rw [hdec]
  simp

/-! ## Evaluation of the decoder on short and on generic inputs -/

theorem UnmarshalSet_eval1 (b0 : Nat) :
    UnmarshalSet [b0] =
      if b0 ≠ sysExStart ∨ b0 ≠ sysExEnd then .failure .notSysEx
      else .outOfBounds := rfl

theorem UnmarshalSet_eval2 (b0 b1 : Nat) :
    UnmarshalSet [b0, b1] =
      if b0 ≠ sysExStart ∨ b1 ≠ sysExEnd then .failure .notSysEx
      else if b1 ≠ manufacturerID then .failure .wrongManufacturer
      else .outOfBounds := rfl

theorem UnmarshalSet_eval3 (b0 b1 b2 : Nat) :
    UnmarshalSet [b0, b1, b2] =
      if b0 ≠ sysExStart ∨ b2 ≠ sysExEnd then .failure .notSysEx
      else if b1 ≠ manufacturerID then .failure .wrongManufacturer
      else .outOfBounds := rfl

theorem UnmarshalSet_eval4 (b0 b1 b2 b3 : Nat) :
    UnmarshalSet [b0, b1, b2, b3] =
      if b0 ≠ sysExStart ∨ b3 ≠ sysExEnd then .failure .notSysEx
      else if b1 ≠ manufacturerID then .failure .wrongManufacturer
      else if b3 ≠ 0x42 ∧ b3 ≠ 0x45 then .failure .wrongModel
      else .outOfBounds := rfl

theorem UnmarshalSet_eval5 (b0 b1 b2 b3 b4 : Nat) (rest : List Nat) :
    UnmarshalSet (b0 :: b1 :: b2 :: b3 :: b4 :: rest) =
      (let msg := b0 :: b1 :: b2 :: b3 :: b4 :: rest
       if b0 ≠ sysExStart ∨ msg.getD (msg.length - 1) 0 ≠ sysExEnd then
         .failure .notSysEx
       else if b1 ≠ manufacturerID then .failure .wrongManufacturer
       else if b3 ≠ 0x42 ∧ b3 ≠ 0x45 then .failure .wrongModel
       else if b4 ≠ cmdDT1 then .failure .wrongCommand
       else if msg.length < 10 then .failure .tooShort
       else if checksum ((msg.drop 5).take (msg.length - 7))
           ≠ msg.getD (msg.length - 2) 0 then .failure .wrongChecksum
       else .ok (b2, unmarshalInt24 ((msg.drop 5).take 3),
         (msg.drop 8).take (msg.length - 10))) := by
  unfold UnmarshalSet
  simp only [List.getElem?_cons_zero, List.getElem?_cons_succ]
  rfl

/-! ## Behaviour of the bitmap packer -/

theorem packImage_eq_pairs (img : Image) :
    packImage img =
      pairs16.foldl (fun b p => packStep img b p.1 p.2) (List.replicate 64 0) := by
  unfold packImage pairs16
  simp only [List.foldl_flatten, List.foldl_map]

theorem packStep_length (img : Image) (buf : List Nat) (y x : Nat) :
    (packStep img buf y x).length = buf.length := by
  unfold packStep
  split
  · rw [List.length_set]
  · rfl

theorem foldl_packStep_length (img : Image) (ps : List (Nat × Nat)) :
    ∀ buf : List Nat,
      (ps.foldl (fun b p => packStep img b p.1 p.2) buf).length = buf.length := by
  induction ps with
  | nil => intro buf; rfl
  | cons p ps ih =>
    intro buf
    rw [List.foldl_cons, ih, packStep_length]

theorem foldl_packStep_getD (img : Image) (ps : List (Nat × Nat)) :
    ∀ buf : List Nat, (∀ p ∈ ps, p.2 / 5 * 16 + p.1 < buf.length) →
      ∀ i, i < buf.length →
      (ps.foldl (fun b p => packStep img b p.1 p.2) buf).getD i 0
        = buf.getD i 0 ||| orMasks img i ps := by
  induction ps with
  | nil =>
    intro buf _ i _
    simp [orMasks]
  | cons p ps ih =>
    intro buf hb i hi
    rw [List.foldl_cons, orMasks, ← Nat.lor_assoc]
    rw [ih (packStep img buf p.1 p.2)
      (by rw [packStep_length]; exact fun q hq => hb q (List.mem_cons_of_mem _ hq))
      i (by rw [packStep_length]; exact hi)]
    congr 1
    have hidxlt : p.2 / 5 * 16 + p.1 < buf.length := hb p (List.mem_cons_self _ _)
    unfold packStep
    by_cases hbr : bright img p.2 p.1
    · rw [if_pos hbr]
      by_cases hidx : p.2 / 5 * 16 + p.1 = i
      · rw [if_pos ⟨hbr, hidx⟩, hidx]
        simp only [List.getD_eq_getElem?_getD]
        rw [List.getElem?_set_self (by omega)]
        rfl
      · rw [if_neg (by tauto), Nat.or_zero]
        simp only [List.getD_eq_getElem?_getD]
        rw [List.getElem?_set_ne hidx]
    · rw [if_neg hbr, if_neg (by tauto), Nat.or_zero]

set_option maxRecDepth 4000 in
theorem packImage_getD (img : Image) (i : Nat) (hi : i < 64) :
    (packImage img).getD i 0 = orMasks img i pairs16 := by
  rw [packImage_eq_pairs,
    foldl_packStep_getD img pairs16 (List.replicate 64 0) (by decide) i
      (by simpa using hi)]
  have hz : (List.replicate 64 (0 : Nat)).getD i 0 = 0 := by
    simp only [List.getD_eq_getElem?_getD]
    rw [List.getElem?_replicate_of_lt hi]
    rfl
  rw [hz, Nat.zero_or]

theorem packImage_length (img : Image) : (packImage img).length = 64 := by
  rw [packImage_eq_pairs, foldl_packStep_length]
  rfl

theorem orMasks_testBit (img : Image) (i j : Nat) (ps : List (Nat × Nat)) :
    (orMasks img i ps).testBit j
      = ps.any (fun p => bright img p.2 p.1 &&
          decide (p.2 / 5 * 16 + p.1 = i) && decide (4 - p.2 % 5 = j)) := by
  induction ps with
  | nil => simp [orMasks]
  | cons p ps ih =>
    rw [orMasks, Nat.testBit_or, ih, List.any_cons]
    congr 1
    by_cases hbr : bright img p.2 p.1
    · by_cases hidx : p.2 / 5 * 16 + p.1 = i
      · rw [if_pos ⟨hbr, hidx⟩, Nat.one_shiftLeft, Nat.testBit_two_pow]
        simp [hbr, hidx]
      · rw [if_neg (by tauto)]
        simp [hbr, hidx, Nat.zero_testBit]
    · rw [if_neg (by tauto)]
      simp [hbr, Nat.zero_testBit]

theorem mem_pairs16 (p : Nat × Nat) :
    p ∈ pairs16 ↔ p.1 < 16 ∧ p.2 < 16 := by
  unfold pairs16
  constructor
  · intro hp
    simp only [List.mem_flatten, List.mem_map, List.mem_range] at hp
    obtain ⟨l, ⟨y, hy, hl⟩, hpl⟩ := hp
    subst hl
    simp only [List.mem_map, List.mem_range] at hpl
    obtain ⟨x, hx, hxp⟩ := hpl
    subst hxp
    exact ⟨hy, hx⟩
  · intro ⟨h1, h2⟩
    simp only [List.mem_flatten, List.mem_map, List.mem_range]
    exact ⟨(List.range 16).map (fun x => (p.1, x)), ⟨p.1, h1, rfl⟩,
      by simp only [List.mem_map, List.mem_range]; exact ⟨p.2, h2, rfl⟩⟩

/-! ## Claim theorems -/

/-- C1: for every register in the catalog, every device ID (a byte) and
every logical value `v` in `[Min-Zero, Max-Zero]`, decoding the frame
produced by encoding round-trips exactly: `r.Unmarshal (r.Set device v)`
returns the same device ID, the logical value `v`, and no error. -/
theorem c1_catalog_roundtrip :
    ∀ r ∈ catalogRegisters, ∀ device : Nat, device < 256 → ∀ v : Int,
      r.Min - r.Zero ≤ v → v ≤ r.Max - r.Zero →
      r.Unmarshal (r.Set device v) = .ok (device, v) :=
  fun r hr device _ v hlo hhi =>
    set_unmarshal_roundtrip r (catalog_good r hr) device v hlo hhi

/-- Witness for C1: the master-pan register at device `0x10` and logical
value `-20`. -/
theorem c1_catalog_roundtrip_witness :
    MasterPan.Unmarshal (MasterPan.Set 0x10 (-20)) = .ok (0x10, -20) :=
  c1_catalog_roundtrip MasterPan (by decide) 0x10 (by decide) (-20)
    (by decide) (by decide)

/-- C2 as stated is false on the code: at the master-pan register
(`Zero = 0x40`), device `0x10` and logical value `-63`, the frame computed
by `Register.Set` (which clamps `value + Zero`) differs from the frame of
the claimed clamp-first-then-offset formula `clamp(value, Min, Max) + Zero`
(modelled by `Register.SetClampFirst`). -/
theorem c2_counterexample :
    MasterPan.Set 0x10 (-63) ≠ MasterPan.SetClampFirst 0x10 (-63) := by
  decide

/-- C2 (amended): `Register.Set` computes the raw value as
`clamp(logicalValue + Zero, Min, Max)` — the `Zero` offset is added to the
logical value first and the sum is clamped against the raw bounds — then
encodes the raw value as `Size` little-endian base-256 digits and passes
them to `DataSet` at the register's address. -/
theorem c2_set_offset_then_clamp (r : Register) (device : Nat) (v : Int)
    (hmin0 : 0 ≤ r.Min) (hmm : r.Min ≤ r.Max)
    (hs1 : 1 ≤ r.Size) (hs4 : r.Size ≤ 4) :
    r.Set device v = DataSet device r.Address
      ((List.range r.Size.toNat).map
        (fun i => (min (max (v + r.Zero) r.Min) r.Max).toNat / 256 ^ i % 256)) := by
  unfold Register.Set
  have hcl : clamp (v + r.Zero) r.Min r.Max
      = min (max (v + r.Zero) r.Min) r.Max := by
    unfold clamp
    split
    · omega
    · split <;> omega
  rw [hcl]
  have hW0 : 0 ≤ min (max (v + r.Zero) r.Min) r.Max := by omega
  set W := min (max (v + r.Zero) r.Min) r.Max with hW
  clear hW
  clear_value W
  have ha : 1 ≤ r.Size.toNat := by omega
  have hb : r.Size.toNat ≤ 4 := by omega
  set s := r.Size.toNat with hs
  interval_cases s
  all_goals simp [List.range_succ, byteOf]
  all_goals apply congrArg
  all_goals norm_num [List.cons.injEq]
  all_goals omega

/-- Witness for C2 (amended): the master-volume register at device `0x10`
and logical value `200`. -/
theorem c2_set_offset_then_clamp_witness :
    MasterVolume.Set 0x10 200 = DataSet 0x10 MasterVolume.Address
      ((List.range MasterVolume.Size.toNat).map
        (fun i => (min (max ((200 : Int) + MasterVolume.Zero) MasterVolume.Min)
          MasterVolume.Max).toNat / 256 ^ i % 256)) :=
  c2_set_offset_then_clamp MasterVolume 0x10 200 (by decide) (by decide)
    (by decide) (by decide)

/-- C3: for every byte sequence, `checksum` equals
`(128 - (sum mod 128)) mod 128`, so it always lies in `[0, 127]`, and a
body whose byte sum is an exact multiple of 128 yields checksum 0,
never 128. -/
theorem c3_checksum_formula : ∀ data : List Nat,
    checksum data = (128 - data.sum % 128) % 128 ∧
    checksum data ≤ 127 ∧
    (data.sum % 128 = 0 → checksum data = 0) := by
  intro data
  unfold checksum
  omega

/-- Witness for C3: a body summing to 128 has checksum 0. -/
theorem c3_checksum_formula_witness :
    checksum [64, 64] = 0 ∧ checksum [64, 64] = (128 - [64, 64].sum % 128) % 128 :=
  ⟨(c3_checksum_formula [64, 64]).2.2 (by decide), (c3_checksum_formula [64, 64]).1⟩

/-- C4: for every device ID, address in `[0, 2^24)` and data bytes,
`DataSet` returns exactly the frame start byte, manufacturer, device,
model ID (`0x45` below `0x400000`, `0x42` at or above), the DT1 command,
the 3-byte big-endian address, the data, the checksum over the body
(address bytes plus data) only, and the end byte; in particular at
address `0x100000` the model byte is `0x45` and at `0x400000` it is
`0x42`. -/
theorem c4_dataset_frame :
    (∀ (device : Nat) (addr : Int) (data : List Nat),
      0 ≤ addr → addr < 2 ^ 24 →
      DataSet device addr data =
        [0xF0, 0x41, device, if addr < 0x400000 then 0x45 else 0x42, 0x12,
          addr.toNat / 65536, addr.toNat / 256 % 256, addr.toNat % 256] ++
        data ++
        [checksum ([addr.toNat / 65536, addr.toNat / 256 % 256,
          addr.toNat % 256] ++ data), 0xF7]) ∧
    (∀ (device : Nat) (data : List Nat),
      (DataSet device 0x100000 data).getD 3 0 = 0x45) ∧
    (∀ (device : Nat) (data : List Nat),
      (DataSet device 0x400000 data).getD 3 0 = 0x42) := by
  refine ⟨?_, ?_, ?_⟩
  · intro device addr data h0 hlt
    have hlt' : addr < 16777216 := by norm_num at hlt; exact hlt
    have e1 : byteOf (addr / 65536) = addr.toNat / 65536 := by
      unfold byteOf; omega
    have e2 : byteOf (addr / 256) = addr.toNat / 256 % 256 := by
      unfold byteOf; omega
    have e3 : byteOf addr = addr.toNat % 256 := by
      unfold byteOf; omega
    have hmid : modelID addr = if addr < 0x400000 then 0x45 else 0x42 := rfl
    unfold DataSet marshalInt24
    rw [e1, e2, e3, hmid]
    simp [sysExStart, sysExEnd, manufacturerID, cmdDT1]
  · intro device data
    rfl
  · intro device data
    rfl

/-- Witness for C4: a display-message frame at address `0x100000`. -/
theorem c4_dataset_frame_witness :
    DataSet 0x10 0x100000 [72] =
      [0xF0, 0x41, 0x10,
        if (0x100000 : Int) < 0x400000 then 0x45 else 0x42, 0x12,
        (0x100000 : Int).toNat / 65536, (0x100000 : Int).toNat / 256 % 256,
        (0x100000 : Int).toNat % 256] ++
      [72] ++
      [checksum ([(0x100000 : Int).toNat / 65536,
        (0x100000 : Int).toNat / 256 % 256, (0x100000 : Int).toNat % 256] ++
        [72]), 0xF7] :=
  c4_dataset_frame.1 0x10 0x100000 [72] (by decide) (by decide)

/-- C9: for every register with coherent bounds, every device ID and every
logical value, `Set` below `Min - Zero` produces the frame of exactly
`Min - Zero`, and `Set` above `Max - Zero` produces the frame of exactly
`Max - Zero`: out-of-range input is silently saturated, never rejected. -/
theorem c9_set_saturating (r : Register) (device : Nat) (v : Int)
    (hmm : r.Min ≤ r.Max) :
    (v < r.Min - r.Zero → r.Set device v = r.Set device (r.Min - r.Zero)) ∧
    (v > r.Max - r.Zero → r.Set device v = r.Set device (r.Max - r.Zero)) := by
  have key : ∀ w₁ w₂ : Int,
      clamp (w₁ + r.Zero) r.Min r.Max = clamp (w₂ + r.Zero) r.Min r.Max →
      r.Set device w₁ = r.Set device w₂ := by
    intro w₁ w₂ h
    unfold Register.Set
    rw [h]
  constructor
  · intro h
    apply key
    unfold clamp
    rw [if_pos (by omega), if_neg (by omega), if_neg (by omega)]
    omega
  · intro h
    apply key
    unfold clamp
    rw [if_neg (by omega), if_pos (by omega), if_neg (by omega),
      if_neg (by omega)]
    omega

/-- C5: `UnmarshalSet` validates, with a distinct error for each failed
check, the start/end bytes, the manufacturer ID, the model ID
(`0x42` or `0x45`), the DT1 command byte, the minimum frame length, and
the checksum recomputed over the body; on success it returns the device ID
from byte 2, the address decoded big-endian from bytes 5..7, and the
payload between the address and the trailing checksum/end bytes; and a
frame whose checksum byte is replaced by a different value is rejected
with the checksum-mismatch error, never accepted. Each conjunct assumes
the indexed bytes exist (see C10 for the short-input behaviour). -/
theorem c5_unmarshal_validation :
    (∀ msg : List Nat, 1 ≤ msg.length →
      (msg.getD 0 0 ≠ 0xF0 ∨ msg.getD (msg.length - 1) 0 ≠ 0xF7) →
      UnmarshalSet msg = .failure .notSysEx) ∧
    (∀ msg : List Nat, 2 ≤ msg.length →
      msg.getD 0 0 = 0xF0 → msg.getD (msg.length - 1) 0 = 0xF7 →
      msg.getD 1 0 ≠ 0x41 → UnmarshalSet msg = .failure .wrongManufacturer) ∧
    (∀ msg : List Nat, 4 ≤ msg.length →
      msg.getD 0 0 = 0xF0 → msg.getD (msg.length - 1) 0 = 0xF7 →
      msg.getD 1 0 = 0x41 → msg.getD 3 0 ≠ 0x42 → msg.getD 3 0 ≠ 0x45 →
      UnmarshalSet msg = .failure .wrongModel) ∧
    (∀ msg : List Nat, 5 ≤ msg.length →
      msg.getD 0 0 = 0xF0 → msg.getD (msg.length - 1) 0 = 0xF7 →
      msg.getD 1 0 = 0x41 → (msg.getD 3 0 = 0x42 ∨ msg.getD 3 0 = 0x45) →
      msg.getD 4 0 ≠ 0x12 → UnmarshalSet msg = .failure .wrongCommand) ∧
    (∀ msg : List Nat, 5 ≤ msg.length → msg.length < 10 →
      msg.getD 0 0 = 0xF0 → msg.getD (msg.length - 1) 0 = 0xF7 →
      msg.getD 1 0 = 0x41 → (msg.getD 3 0 = 0x42 ∨ msg.getD 3 0 = 0x45) →
      msg.getD 4 0 = 0x12 → UnmarshalSet msg = .failure .tooShort) ∧
    (∀ msg : List Nat, 10 ≤ msg.length →
      msg.getD 0 0 = 0xF0 → msg.getD (msg.length - 1) 0 = 0xF7 →
      msg.getD 1 0 = 0x41 → (msg.getD 3 0 = 0x42 ∨ msg.getD 3 0 = 0x45) →
      msg.getD 4 0 = 0x12 →
      checksum ((msg.drop 5).take (msg.length - 7)) ≠ msg.getD (msg.length - 2) 0 →
      UnmarshalSet msg = .failure .wrongChecksum) ∧
    (∀ msg : List Nat, 10 ≤ msg.length → (∀ b ∈ msg, b < 256) →
      msg.getD 0 0 = 0xF0 → msg.getD (msg.length - 1) 0 = 0xF7 →
      msg.getD 1 0 = 0x41 → (msg.getD 3 0 = 0x42 ∨ msg.getD 3 0 = 0x45) →
      msg.getD 4 0 = 0x12 →
      checksum ((msg.drop 5).take (msg.length - 7)) = msg.getD (msg.length - 2) 0 →
      UnmarshalSet msg = .ok (msg.getD 2 0,
        ((msg.getD 5 0 * 65536 + msg.getD 6 0 * 256 + msg.getD 7 0 : Nat) : Int),
        (msg.drop 8).take (msg.length - 10))) ∧
    (∀ (device c : Nat) (addr : Int) (data : List Nat),
      c ≠ checksum (marshalInt24 addr ++ data) →
      UnmarshalSet ([sysExStart, manufacturerID, device, modelID addr, cmdDT1]
        ++ (marshalInt24 addr ++ data) ++ [c, sysExEnd])
        = .failure .wrongChecksum) := by
  refine ⟨?_, ?_, ?_, ?_, ?_, ?_, ?_, ?_⟩
  · -- notSysEx
    intro msg h1 hbad
    match msg with
    | [] => simp at h1
    | [b0] =>
      rw [UnmarshalSet_eval1, if_pos (by exact hbad)]
    | [b0, b1] =>
      rw [UnmarshalSet_eval2, if_pos (by exact hbad)]
    | [b0, b1, b2] =>
      rw [UnmarshalSet_eval3, if_pos (by exact hbad)]
    | [b0, b1, b2, b3] =>
      rw [UnmarshalSet_eval4, if_pos (by exact hbad)]
    | b0 :: b1 :: b2 :: b3 :: b4 :: rest =>
      rw [UnmarshalSet_eval5]
      dsimp only
      rw [if_pos (by exact hbad)]
  · -- wrongManufacturer
    intro msg h2 h0 hl h1b
    match msg with
    | [] => simp at h2
    | [b0] => simp at h2
    | [b0, b1] =>
      rw [UnmarshalSet_eval2,
        if_neg (by push_neg; exact ⟨h0, hl⟩), if_pos (by exact h1b)]
    | [b0, b1, b2] =>
      rw [UnmarshalSet_eval3,
        if_neg (by push_neg; exact ⟨h0, hl⟩), if_pos (by exact h1b)]
    | [b0, b1, b2, b3] =>
      rw [UnmarshalSet_eval4,
        if_neg (by push_neg; exact ⟨h0, hl⟩), if_pos (by exact h1b)]
    | b0 :: b1 :: b2 :: b3 :: b4 :: rest =>
      rw [UnmarshalSet_eval5]
      dsimp only
      rw [if_neg (by push_neg; exact ⟨h0, hl⟩), if_pos (by exact h1b)]
  · -- wrongModel
    intro msg h4 h0 hl h1 h42 h45
    match msg with
    | [] => simp at h4
    | [b0] => simp at h4
    | [b0, b1] => simp at h4
    | [b0, b1, b2] => simp at h4
    | [b0, b1, b2, b3] =>
      rw [UnmarshalSet_eval4,
        if_neg (by push_neg; exact ⟨h0, hl⟩),
        if_neg (by push_neg; exact h1),
        if_pos (by exact ⟨h42, h45⟩)]
    | b0 :: b1 :: b2 :: b3 :: b4 :: rest =>
      rw [UnmarshalSet_eval5]
      dsimp only
      rw [if_neg (by push_neg; exact ⟨h0, hl⟩),
        if_neg (by push_neg; exact h1),
        if_pos (by exact ⟨h42, h45⟩)]
  · -- wrongCommand
    intro msg h5 h0 hl h1 h3 h4b
    match msg with
    | [] => simp at h5
    | [b0] => simp at h5
    | [b0, b1] => simp at h5
    | [b0, b1, b2] => simp at h5
    | [b0, b1, b2, b3] => simp at h5
    | b0 :: b1 :: b2 :: b3 :: b4 :: rest =>
      rw [UnmarshalSet_eval5]
      dsimp only
      rw [if_neg (by push_neg; exact ⟨h0, hl⟩),
        if_neg (by push_neg; exact h1),
        if_neg (by
          have h3x : b3 = 66 ∨ b3 = 69 := h3
          rcases h3x with h | h <;> simp [h]),
        if_pos (by exact h4b)]
  · -- tooShort
    intro msg h5 h10 h0 hl h1 h3 h4e
    match msg with
    | [] => simp at h5
    | [b0] => simp at h5
    | [b0, b1] => simp at h5
    | [b0, b1, b2] => simp at h5
    | [b0, b1, b2, b3] => simp at h5
    | b0 :: b1 :: b2 :: b3 :: b4 :: rest =>
      rw [UnmarshalSet_eval5]
      dsimp only
      rw [if_neg (by push_neg; exact ⟨h0, hl⟩),
        if_neg (by push_neg; exact h1),
        if_neg (by
          have h3x : b3 = 66 ∨ b3 = 69 := h3
          rcases h3x with h | h <;> simp [h]),
        if_neg (by push_neg; exact h4e),
        if_pos (by exact h10)]
  · -- wrongChecksum
    intro msg h10 h0 hl h1 h3 h4e hcs
    match msg with
    | [] => simp at h10
    | [b0] => simp at h10
    | [b0, b1] => simp at h10
    | [b0, b1, b2] => simp at h10
    | [b0, b1, b2, b3] => simp at h10
    | b0 :: b1 :: b2 :: b3 :: b4 :: rest =>
      rw [UnmarshalSet_eval5]
      dsimp only
      rw [if_neg (by push_neg; exact ⟨h0, hl⟩),
        if_neg (by push_neg; exact h1),
        if_neg (by
          have h3x : b3 = 66 ∨ b3 = 69 := h3
          rcases h3x with h | h <;> simp [h]),
        if_neg (by push_neg; exact h4e),
        if_neg (by simp only [List.length_cons] at h10 ⊢; omega),
        if_pos (by exact hcs)]
  · -- success
    intro msg h10 hb h0 hl h1 h3 h4e hcs
    match msg with
    | [] => simp at h10
    | [b0] => simp at h10
    | [b0, b1] => simp at h10
    | [b0, b1, b2] => simp at h10
    | [b0, b1, b2, b3] => simp at h10
    | [b0, b1, b2, b3, b4] => simp at h10
    | [b0, b1, b2, b3, b4, b5] => simp at h10
    | [b0, b1, b2, b3, b4, b5, b6] => simp at h10
    | b0 :: b1 :: b2 :: b3 :: b4 :: b5 :: b6 :: b7 :: rest2 =>
      rw [UnmarshalSet_eval5]
      dsimp only
      rw [if_neg (by push_neg; exact ⟨h0, hl⟩),
        if_neg (by push_neg; exact h1),
        if_neg (by
          have h3x : b3 = 66 ∨ b3 = 69 := h3
          rcases h3x with h | h <;> simp [h]),
        if_neg (by push_neg; exact h4e),
        if_neg (by simp only [List.length_cons] at h10 ⊢; omega),
        if_neg (by push_neg; exact hcs)]
      have hdig : unmarshalInt24 [b5, b6, b7] =
          ((b5 * 65536 + b6 * 256 + b7 : Nat) : Int) :=
        unmarshalInt24_digits b5 b6 b7 (hb b6 (by simp)) (hb b7 (by simp))
      rw [show ((b0 :: b1 :: b2 :: b3 :: b4 :: b5 :: b6 :: b7 :: rest2).drop 5).take 3
          = [b5, b6, b7] from rfl, hdig]
      rfl
  · -- flipped checksum on a frame
    intro device c addr data hne
    have hshape : [sysExStart, manufacturerID, device, modelID addr, cmdDT1]
        ++ (marshalInt24 addr ++ data) ++ [c, sysExEnd] =
        [sysExStart, manufacturerID, device, modelID addr, cmdDT1,
          byteOf (addr / 65536), byteOf (addr / 256), byteOf addr] ++
        (data ++ [c, sysExEnd]) := by
      unfold marshalInt24
      simp
    rw [hshape, UnmarshalSet_decomp]
    have hm : ¬ (modelID addr ≠ 0x42 ∧ modelID addr ≠ 0x45) := by
      unfold modelID
      split <;> simp
    rw [if_neg (by unfold sysExStart sysExEnd; simp),
      if_neg (by unfold manufacturerID; simp),
      if_neg hm,
      if_neg (by unfold cmdDT1; simp),
      if_pos (by exact fun h => hne h.symm)]

/-- Witness for C5: a well-formed master-volume frame decodes to its
device, address and payload. -/
theorem c5_unmarshal_validation_witness :
    UnmarshalSet [0xF0, 0x41, 0x10, 0x42, 0x12, 0x40, 0x00, 0x04, 0x64, 0x58, 0xF7]
      = .ok (0x10, (0x400004 : Int), [0x64]) :=
  c5_unmarshal_validation.2.2.2.2.2.2.1
    [0xF0, 0x41, 0x10, 0x42, 0x12, 0x40, 0x00, 0x04, 0x64, 0x58, 0xF7]
    (by decide) (by decide) (by decide) (by decide) (by decide) (by decide)
    (by decide) (by decide)

/-- C10 as stated is false: the length-1 input `[0]` is shorter than 5
bytes yet `UnmarshalSet` returns the not-SysEx error on it instead of
indexing out of bounds. -/
theorem c10_counterexample :
    ([(0 : Nat)] : List Nat).length < 5 ∧ UnmarshalSet [0] ≠ .outOfBounds := by
  decide

/-- C10 (amended): `UnmarshalSet` indexes out of bounds exactly on the
empty input and on the input `[0xF0, 0x41, 0xF7]`; every other short
input fails an earlier byte check, and the minimum-length error implies
the length was 6 to 9 (a length-5 frame cannot reach it, since its byte 4
would have to be both the command byte and the end byte). -/
theorem c10_short_input_behaviour : ∀ msg : List Nat,
    (UnmarshalSet msg = .outOfBounds ↔ msg = [] ∨ msg = [0xF0, 0x41, 0xF7]) ∧
    (UnmarshalSet msg = .failure .tooShort → 6 ≤ msg.length ∧ msg.length ≤ 9) := by
  intro msg
  match msg with
  | [] =>
    refine ⟨by simp [show UnmarshalSet [] = .outOfBounds from rfl], ?_⟩
    intro h
    exact absurd h (by decide)
  | [b0] =>
    rw [UnmarshalSet_eval1]
    constructor
    · constructor
      · intro h
        split at h
        · simp at h
        · next hcond =>
          push_neg at hcond
          norm_num [sysExStart, sysExEnd] at hcond
          omega
      · intro h
        rcases h with h | h <;> simp at h
    · intro h
      split at h <;> simp at h
  | [b0, b1] =>
    rw [UnmarshalSet_eval2]
    constructor
    · constructor
      · intro h
        split at h
        · simp at h
        · split at h
          · simp at h
          · next hc1 hc2 =>
            push_neg at hc1 hc2
            norm_num [sysExStart, sysExEnd, manufacturerID] at hc1 hc2
            omega
      · intro h
        rcases h with h | h <;> simp at h
    · intro h
      split at h
      · simp at h
      · split at h <;> simp at h
  | [b0, b1, b2] =>
    constructor
    · constructor
      · intro h
        rw [UnmarshalSet_eval3] at h
        split at h
        · simp at h
        · split at h
          · simp at h
          · next hc1 hc2 =>
            push_neg at hc1 hc2
            norm_num [sysExStart, sysExEnd, manufacturerID] at hc1 hc2
            simp [hc1.1, hc1.2, hc2]
      · intro h
        rcases h with h | h
        · simp at h
        · simp only [List.cons.injEq, and_true] at h
          obtain ⟨rfl, rfl, rfl, -⟩ := h
          decide
    · intro h
      rw [UnmarshalSet_eval3] at h
      split at h
      · simp at h
      · split at h <;> simp at h
  | [b0, b1, b2, b3] =>
    rw [UnmarshalSet_eval4]
    constructor
    · constructor
      · intro h
        split at h
        · simp at h
        · split at h
          · simp at h
          · split at h
            · simp at h
            · next hc1 hc2 hc3 =>
              push_neg at hc1 hc3
              norm_num [sysExStart, sysExEnd] at hc1 hc3
              omega
      · intro h
        rcases h with h | h <;> simp at h
    · intro h
      split at h
      · simp at h
      · split at h
        · simp at h
        · split at h <;> simp at h
  | b0 :: b1 :: b2 :: b3 :: b4 :: rest =>
    rw [UnmarshalSet_eval5]
    dsimp only
    constructor
    · constructor
      · intro h
        split at h
        · simp at h
        · split at h
          · simp at h
          · split at h
            · simp at h
            · split at h
              · simp at h
              · split at h
                · simp at h
                · split at h <;> simp at h
      · intro h
        rcases h with h | h <;> simp at h
    · intro h
      split at h
      · simp at h
      · split at h
        · simp at h
        · split at h
          · simp at h
          · split at h
            · simp at h
            · split at h
              · next hc1 _ _ hc4 hlen =>
                match rest with
                | [] =>
                  push_neg at hc1 hc4
                  norm_num [sysExStart, sysExEnd, cmdDT1] at hc1 hc4
                  omega
                | r :: rest2 =>
                  simp only [List.length_cons] at hlen ⊢
                  omega
              · split at h <;> simp at h

/-- Witness for C10 (amended): the input `[0xF0, 0x41, 0xF7]` does index
out of bounds. -/
theorem c10_short_input_behaviour_witness :
    UnmarshalSet [0xF0, 0x41, 0xF7] = .outOfBounds :=
  (c10_short_input_behaviour [0xF0, 0x41, 0xF7]).1.mpr (Or.inr rfl)

set_option maxRecDepth 4000 in
/-- C6: the catalog builder gives part `n` (1-16) the base address
`0x401000 + partIndex * 0x100` with the part-index quirk (`n` for parts
1-9, 0 for part 10, `n - 1` for parts 11-16); in particular part 1 has
base `0x401100`, part 10 `0x401000`, part 11 `0x401A00`, part 16
`0x401F00`; and every field of each part has the template's relative
offset plus that base as its address. -/
theorem c6_part_base_addresses :
    (∀ n : Nat, 1 ≤ n → n ≤ 16 →
      partBase n = 0x401000 +
        (if n ≤ 9 then (n : Int) else if n = 10 then 0 else (n : Int) - 1)
          * 0x100) ∧
    partBase 1 = 0x401100 ∧ partBase 10 = 0x401000 ∧
    partBase 11 = 0x401A00 ∧ partBase 16 = 0x401F00 ∧
    (∀ n : Nat, 1 ≤ n → n ≤ 16 →
      (partRegisters n).length = templatePart.length ∧
      ∀ i : Nat, i < templatePart.length →
        ((partRegisters n).getD i default).Address
          = (templatePart.getD i default).Address + partBase n) := by
  refine ⟨?_, by decide, by decide, by decide, by decide, ?_⟩
  · intro n h1 h16
    interval_cases n <;> decide
  · intro n h1 h16
    interval_cases n <;> exact ⟨by decide, by decide⟩

/-- Witness for C6: the base address of part 16 and a field address of
part 1. -/
theorem c6_part_base_addresses_witness :
    (partBase 16 = 0x401000 +
      (if (16 : Nat) ≤ 9 then ((16 : Nat) : Int)
       else if (16 : Nat) = 10 then 0 else ((16 : Nat) : Int) - 1) * 0x100) ∧
    ((partRegisters 1).getD 0 default).Address
      = (templatePart.getD 0 default).Address + partBase 1 :=
  ⟨c6_part_base_addresses.1 16 (by decide) (by decide),
   (c6_part_base_addresses.2.2.2.2.2 1 (by decide) (by decide)).2 0 (by decide)⟩

set_option maxRecDepth 8000 in
/-- C7 fails on the code: evaluated over the whole catalog, every register
satisfies `Min ≤ Zero` and `Max < 2^(8*Size)`, but the `PitchOffsetFine`
template field `Register{0x17, 2, 0x08, 0xf8, 0x800}` (field index 22) has
`Zero = 0x800` above `Max = 0xf8`, so its zero point lies outside the
bounds; its 16 per-part copies (for part 1, address `0x401117`) are
exactly the catalog registers violating `Zero ≤ Max`. -/
theorem c7_invariant_evaluation :
    (catalogRegisters.all (fun r =>
      decide (r.Min ≤ r.Zero) && decide (r.Max < 2 ^ (8 * r.Size.toNat)))
      = true) ∧
    templatePart.getD 22 default = ⟨0x17, 2, 0x08, 0xf8, 0x800⟩ ∧
    (⟨0x401117, 2, 0x08, 0xf8, 0x800⟩ : Register) ∈ catalogRegisters ∧
    ¬ ((⟨0x401117, 2, 0x08, 0xf8, 0x800⟩ : Register).Zero
        ≤ (⟨0x401117, 2, 0x08, 0xf8, 0x800⟩ : Register).Max) ∧
    (catalogRegisters.filter (fun r => ! decide (r.Zero ≤ r.Max))).length = 16 ∧
    (catalogRegisters.filter (fun r => ! decide (r.Zero ≤ r.Max))).all
      (fun r => decide (r.Min = 0x08) && decide (r.Max = 0xf8)
        && decide (r.Zero = 0x800)) = true := by
  decide

set_option maxRecDepth 100000 in
/-- C8: `DisplayImage` rejects any image source whose bounds are not
exactly 16x16; otherwise it sends the 64-byte packed buffer with
`DataSet` at the display-image address, and in that buffer bit
`4 - (x mod 5)` of byte `(x div 5)*16 + y` is set exactly for the bright
pixels (average of r/g/b above `0x8000`) and no other bit is set; an
all-dark image packs to 64 zero bytes and the single pixel `(0,0)` sets
bit 4 of byte 0 only. -/
theorem c8_display_image : ∀ (device : Nat) (img : Image),
    (img.bounds ≠ (0, 0, 16, 16) → DisplayImage device img = none) ∧
    (img.bounds = (0, 0, 16, 16) →
      DisplayImage device img
        = some (DataSet device AddrDisplayImage (packImage img))) ∧
    (packImage img).length = 64 ∧
    (∀ i j : Nat, i < 64 →
      (((packImage img).getD i 0).testBit j = true ↔
        ∃ x, x < 16 ∧ ∃ y, y < 16 ∧ bright img x y = true ∧
          x / 5 * 16 + y = i ∧ 4 - x % 5 = j)) ∧
    packImage allDark16 = List.replicate 64 0 ∧
    packImage pixel00 = 16 :: List.replicate 63 0 := by
  intro device img
  refine ⟨?_, ?_, packImage_length img, ?_, ?_, ?_⟩
  · intro h
    unfold DisplayImage
    rw [if_pos h]
  · intro h
    unfold DisplayImage
    rw [if_neg (by simp [h])]
  · intro i j hi
    rw [packImage_getD img i hi, orMasks_testBit, List.any_eq_true]
    constructor
    · rintro ⟨p, hp, hf⟩
      rw [mem_pairs16] at hp
      simp only [Bool.and_eq_true, decide_eq_true_eq] at hf
      exact ⟨p.2, hp.2, p.1, hp.1, hf.1.1, hf.1.2, hf.2⟩
    · rintro ⟨x, hx, y, hy, hbr, hidx, hbit⟩
      refine ⟨(y, x), (mem_pairs16 (y, x)).mpr ⟨hy, hx⟩, ?_⟩
      simp only [Bool.and_eq_true, decide_eq_true_eq]
      exact ⟨⟨hbr, hidx⟩, hbit⟩
  · decide
  · decide

/-- Witness for C8: the all-dark image is accepted and sent as a frame at
the display-image address. -/
theorem c8_display_image_witness :
    DisplayImage 0x10 allDark16
      = some (DataSet 0x10 AddrDisplayImage (packImage allDark16)) :=
  (c8_display_image 0x10 allDark16).2.1 rfl

/-- Witness for C9: the master-volume register saturates at both ends. -/
theorem c9_set_saturating_witness :
    (MasterVolume.Set 0x10 (-5)
      = MasterVolume.Set 0x10 (MasterVolume.Min - MasterVolume.Zero)) ∧
    (MasterVolume.Set 0x10 500
      = MasterVolume.Set 0x10 (MasterVolume.Max - MasterVolume.Zero)) :=
  ⟨(c9_set_saturating MasterVolume 0x10 (-5) (by decide)).1 (by decide),
   (c9_set_saturating MasterVolume 0x10 500 (by decide)).2 (by decide)⟩

end SC55
